import Mathlib

/-!
Verification of the oqbridge hot/cold search bridge.

This file gives a shallow embedding in Lean 4 of the components of the
oqbridge repository that the checked claims are about, and proves (or
refutes) each claim against that embedding.

Modelling conventions:
- Go machine integers are modelled as `Int` (none of the verified code paths
  can overflow 64-bit integers on the inputs considered).
- UTC instants (`time.Time`) are modelled as `Int` epoch milliseconds;
  `t.Before u` is `t < u`, `t.After u` is `t > u`, `t.Equal u` is `t = u`,
  and `AddDate(0,0,d)` on a UTC instant is `t + d * 86400000`.
- JSON float64 scores are modelled as `Rat` (JSON literals denote finite
  decimals, so NaN/Inf never arise on decoded values).
- Decoded JSON documents are modelled by the inductive `JVal` below; Go's
  `json.Unmarshal` into `map[string]any` succeeding corresponds to the
  value being a `JVal.jobj`.  JSON numbers are modelled as `Int` since every
  number the verified code inspects (`from`, `size`, epoch milliseconds) is
  integral.
- Effectful Go functions are modelled as pure functions over the responses
  of their HTTP calls (the response status codes and decoded bodies are
  extra parameters), and stateful stores are explicit state records.
-/

namespace Oqbridge

/-! ## JSON model -/

/-- Decoded JSON value (result of Go `json.Unmarshal` into `any`).
Objects are association lists; Go JSON objects never carry duplicate keys. -/
inductive JVal where
  | jnull
  | jbool (b : Bool)
  | jnum (n : Int)
  | jstr (s : String)
  | jarr (elems : List JVal)
  | jobj (fields : List (String × JVal))
deriving BEq, Repr

/-- Lookup of a key in a decoded JSON object (Go `m[key]`, comma-ok form). -/
def jlookup (key : String) : List (String × JVal) → Option JVal
  | [] => none
  | (k, v) :: rest => if k = key then some v else jlookup key rest

/-- Assignment `m[key] = v` on a decoded JSON object: replaces the first
binding of `key`, or appends one when absent. -/
def jset (key : String) (v : JVal) : List (String × JVal) → List (String × JVal)
  | [] => [(key, v)]
  | (k, w) :: rest => if k = key then (k, v) :: rest else (k, w) :: jset key v rest

/-! ## Response merger (internal/proxy merger, appended to quickwit.go)

Scores are `Rat` (JSON float64 values); a hit is its decoded `_score`
(`none` when the hit has no parseable `_score`) together with its remaining
JSON payload, kept opaque.  Go's `sort.SliceStable` is embedded as a stable
insertion sort: its output — the unique permutation that is sorted and keeps
tied elements in input order — is exactly what `sort.SliceStable` guarantees. -/

/-- A single search hit: decoded `_score` plus the rest of the hit JSON,
which the merger never inspects. -/
structure Hit where
  score : Option Rat
  payload : String
deriving BEq, Repr

/-- Go `extractScore`: the hit's `_score`, or 0 when absent or undecodable. -/
def extractScore (h : Hit) : Rat := h.score.getD 0

/-- The `hits.total` object of a search response. -/
structure HitsTotal where
  value : Int
  relation : String
deriving BEq, Repr

/-- The `hits` object of a search response. -/
structure HitsResult where
  total : HitsTotal
  maxScore : Option Rat
  hits : List Hit
deriving BEq, Repr

/-- A decoded search response in the uniform shape shared by both backends.
`shards` holds the raw `_shards` JSON, which the merger copies verbatim. -/
structure SearchResponse where
  took : Int
  timedOut : Bool
  shards : String
  hits : HitsResult
  aggregations : Option JVal
deriving BEq, Repr

/-- Stable insertion of `x` into `l`: `x` goes immediately before the first
element that is not strictly less than it, so a tie keeps `x` (the earlier
element of the original list) first. -/
def insertStable (less : α → α → Bool) (x : α) : List α → List α
  | [] => [x]
  | y :: ys => if less y x then y :: insertStable less x ys else x :: y :: ys

/-- Stable sort by the strict comparison `less` (embedding of Go
`sort.SliceStable`). -/
def stableSortBy (less : α → α → Bool) : List α → List α
  | [] => []
  | x :: xs => insertStable less x (stableSortBy less xs)

/-- Comparison used by `sortHitsByScore` (Go `si > sj`): descending score. -/
def hitLessDesc (a b : Hit) : Bool := extractScore b < extractScore a

/-- Comparison used by `sortHitsByScoreAsc` (Go `si < sj`): ascending score. -/
def hitLessAsc (a b : Hit) : Bool := extractScore a < extractScore b

/-- Go `sortHitsByScore`: stable sort of hits by `_score` descending. -/
def sortHitsByScore (hits : List Hit) : List Hit := stableSortBy hitLessDesc hits

/-- Go `sortHitsByScoreAsc`: stable sort of hits by `_score` ascending. -/
def sortHitsByScoreAsc (hits : List Hit) : List Hit := stableSortBy hitLessAsc hits

/-- Go `mergeRelation`. -/
def mergeRelation (a b : String) : String :=
  if a = "gte" ∨ b = "gte" then "gte" else "eq"

/-- Go `mergeMaxScore`: max of the two `max_score` values respecting nils. -/
def mergeMaxScore (a b : Option Rat) : Option Rat :=
  match a, b with
  | none, b => b
  | some x, none => some x
  | some x, some y => some (if y > x then y else x)

/-- Go `mergeAggregations`: shallow merge of the two aggregation objects with
hot winning on key conflicts; if either side is not a JSON object (Go: its
unmarshal into a map fails), the hot side is returned.  Go map iteration
order is abstracted by appending cold-only keys after the hot keys. -/
def mergeAggregations (hot cold : Option JVal) : Option JVal :=
  match hot, cold with
  | none, c => c
  | some h, none => some h
  | some h, some c =>
    match h, c with
    | .jobj hm, .jobj cm =>
      some (.jobj (hm ++ cm.filter (fun kv => (jlookup kv.1 hm).isNone)))
    | _, _ => some h

/-- Core of Go `MergeSearchResponses` for two non-nil responses. -/
def mergeBoth (hot cold : SearchResponse) : SearchResponse :=
  { took := max hot.took cold.took
    timedOut := hot.timedOut || cold.timedOut
    shards := hot.shards
    hits :=
      { total :=
          { value := hot.hits.total.value + cold.hits.total.value
            relation := mergeRelation hot.hits.total.relation cold.hits.total.relation }
        maxScore := mergeMaxScore hot.hits.maxScore cold.hits.maxScore
        hits := sortHitsByScore (hot.hits.hits ++ cold.hits.hits) }
    aggregations := mergeAggregations hot.aggregations cold.aggregations }

/-- Go `MergeSearchResponses` (nil responses are `none`). -/
def MergeSearchResponses : Option SearchResponse → Option SearchResponse → Option SearchResponse
  | none, cold => cold
  | some hot, none => some hot
  | some hot, some cold => some (mergeBoth hot cold)

/-- Go `MergeOptions`. -/
structure MergeOptions where
  From : Int
  Size : Int
  ScoreAsc : Bool
  Paginate : Bool
deriving BEq, Repr

/-- The pagination slice of Go `MergeSearchResponsesWithOptions`: clamp
`from` to the list, then take `hits[from:min(from+size, len)]` (Go slicing of
the hits array). -/
def pageOf (f s : Int) (hs : List Hit) : List Hit :=
  if f > (hs.length : Int) then []
  else (hs.drop f.toNat).take ((min (f + s) (hs.length : Int)) - f).toNat

/-- The `max_score` recomputation loop of Go `MergeSearchResponsesWithOptions`
over the returned page: nil for an empty page, else the running max of the
page's extracted scores. -/
def pageMaxScoreOf (page : List Hit) : Option Rat :=
  match page with
  | [] => none
  | h :: t =>
    some (t.foldl (fun m x => if extractScore x > m then extractScore x else m)
      (extractScore h))

/-- Go `MergeSearchResponsesWithOptions`: merge, optionally re-sort ascending,
optionally paginate to `[from, from+size)` and recompute `max_score` over the
returned page. -/
def MergeSearchResponsesWithOptions (hot cold : Option SearchResponse)
    (opts : MergeOptions) : Option SearchResponse :=
  match MergeSearchResponses hot cold with
  | none => none
  | some merged0 =>
    let merged1 :=
      if opts.ScoreAsc then
        { merged0 with hits := { merged0.hits with hits := sortHitsByScoreAsc merged0.hits.hits } }
      else merged0
    if opts.Paginate then
      let f : Int := if opts.From < 0 then 0 else opts.From
      let s : Int := if opts.Size < 0 then 0 else opts.Size
      let page := pageOf f s merged1.hits.hits
      let ms := pageMaxScoreOf page
      some { merged1 with hits := { merged1.hits with maxScore := ms, hits := page } }
    else some merged1

/-! ## Fan-out planner (internal/proxy/fanout.go) -/

/-- A request body as the planner sees it: either raw bytes that failed JSON
decoding, or a decoded JSON object. -/
inductive BodyRep where
  | raw (s : String)
  | obj (m : List (String × JVal))
deriving BEq, Repr

/-- Go `fanoutPlan`. -/
structure FanoutPlan where
  Body : BodyRep
  Merge : MergeOptions
deriving BEq, Repr

/-- Go `getInt`: integer field of a decoded JSON object with a default
(non-numeric values fall back to the default). -/
def getInt (m : List (String × JVal)) (key : String) (dflt : Int) : Int :=
  match jlookup key m with
  | some (.jnum n) => n
  | some _ => dflt
  | none => dflt

/-- Go `parseScoreSort` on a decoded (non-nil) sort value.  A JSON null
decodes to a nil Go interface, which the source's leading nil check accepts
as "no sort". -/
def parseScoreSortVal : JVal → Bool × Bool
  | .jnull => (false, true)
  | .jstr s => (false, s = "_score")
  | .jarr xs =>
    (match xs with
     | [] => (false, true)
     | [x] => parseScoreSortVal x
     | _ => (false, false))
  | .jobj fields =>
    (match fields with
     | [(k, sv)] =>
       if k = "_score" then
         match sv with
         | .jstr "asc" => (true, true)
         | .jstr _ => (false, true)
         | .jobj inner =>
           (match jlookup "order" inner with
            | some (.jstr o) => (o = "asc", true)
            | _ => (false, true))
         | _ => (false, true)
       else (false, false)
     | _ => (false, false))
  | _ => (false, false)

/-- Go `parseScoreSort`: decides whether a `sort` value is score-only, and
whether it requests ascending order.  Returns `(scoreAsc, ok)`; an absent
`sort` field is a nil value and is accepted. -/
def parseScoreSort : Option JVal → Bool × Bool
  | none => (false, true)
  | some v => parseScoreSortVal v

/-- Go `planFanout`: validates a body for cross-tier merging and rewrites its
pagination.  Returns the plan and an optional rejection reason (Go `error`). -/
def planFanout (body : BodyRep) : FanoutPlan × Option String :=
  let plan0 : FanoutPlan :=
    { Body := body, Merge := { From := 0, Size := 10, ScoreAsc := false, Paginate := false } }
  match body with
  | .raw _ => (plan0, none)
  | .obj m =>
    let from0 := getInt m "from" 0
    let size0 := getInt m "size" 10
    let size1 := if size0 < 0 then 0 else size0
    let from1 := if from0 < 0 then 0 else from0
    let sa := parseScoreSort (jlookup "sort" m)
    if ¬ sa.2 then (plan0, some "explicit sort is not supported (only _score)")
    else if (jlookup "search_after" m).isSome then
      (plan0, some "search_after is not supported for cross-tier merge")
    else if (jlookup "pit" m).isSome then
      (plan0, some "pit is not supported for cross-tier merge")
    else
      let need0 := size1
      let need1 := if size1 > 0 ∧ from1 > 0 then from1 + size1 else need0
      let need := if size1 = 0 then 0 else need1
      let m1 := jset "size" (.jnum need) (jset "from" (.jnum 0) m)
      ({ Body := .obj m1
         Merge := { From := from1, Size := size1, ScoreAsc := sa.1, Paginate := true } },
       none)

/-! ## Tier router (internal/proxy router, appended to README_zh.md) -/

/-- Go `util.TimeRange`: optional absolute UTC bounds in epoch milliseconds. -/
structure TimeRange where
  From : Option Int
  To : Option Int
deriving BEq, Repr

/-- Go `RouteTarget`. -/
inductive RouteTarget where
  | RouteHotOnly
  | RouteColdOnly
  | RouteBoth
deriving BEq, Repr

/-- Go `Router.Route` after time-range extraction: the extracted range (or
`none`) and the cutoff `now_utc - retentionDays` decide the target.  The
hasHot/hasCold pair mirrors the source's two flags. -/
def route (tr : Option TimeRange) (cutoff : Int) : RouteTarget :=
  match tr with
  | none => .RouteBoth
  | some tr =>
    let flags : Bool × Bool :=
      match tr.From, tr.To with
      | some f, some t =>
        if t < cutoff then (false, true)
        else if f > cutoff ∨ f = cutoff then (true, false)
        else (true, true)
      | some f, none =>
        if f < cutoff then (true, true) else (true, false)
      | none, some t =>
        if t < cutoff then (false, true) else (true, true)
      | none, none => (false, false)
    if flags.1 && flags.2 then .RouteBoth
    else if flags.2 then .RouteColdOnly
    else .RouteHotOnly

/-- Routing decision table exactly as the specification states it.  The
`(none, none)` row is unconstrained by the specification (the extractor never
produces a range with both bounds absent); the table assigns it `RouteBoth`
and the equivalence theorem assumes well-formedness instead. -/
def routeSpecTable (tr : Option TimeRange) (cutoff : Int) : RouteTarget :=
  match tr with
  | none => .RouteBoth
  | some tr =>
    match tr.From, tr.To with
    | some f, some t =>
      if t < cutoff then .RouteColdOnly
      else if cutoff ≤ f then .RouteHotOnly
      else .RouteBoth
    | some f, none => if cutoff ≤ f then .RouteHotOnly else .RouteBoth
    | none, some t => if t < cutoff then .RouteColdOnly else .RouteBoth
    | none, none => .RouteBoth

/-! ## Time-range extractor (internal/util/timeutil.go, `parseRangeClause`)

String time values go through date-math and four layout parsers, all of which
depend on the wall clock only through `now`; that string parser is passed in
as a parameter `pts` so that the bound-selection logic under test is exact.
Numeric values are epoch milliseconds (`time.UnixMilli`). -/

/-- Go `parseTimeValue`, with the string parsing routine abstracted as `pts`.
Only strings and numbers can produce a time; every other JSON value yields
`none` (the Go switch has no case for it). -/
def parseTimeValue (pts : String → Option Int) : JVal → Option Int
  | .jstr s => pts s
  | .jnum n => some n
  | _ => none

/-- The bound-selection loop of Go `parseRangeClause`: walk the candidate
keys in order; when a key is present and its value parses, take it and stop;
otherwise continue with the remaining keys. -/
def boundFromKeys (pts : String → Option Int) (bounds : List (String × JVal)) :
    List String → Option Int
  | [] => none
  | k :: ks =>
    match jlookup k bounds with
    | some v =>
      match parseTimeValue pts v with
      | some t => some t
      | none => boundFromKeys pts bounds ks
    | none => boundFromKeys pts bounds ks

/-- Go `parseRangeClause`: given the decoded `range` clause object and the
timestamp field name, extract the time range.  A field value that is not a
JSON object fails its unmarshal and yields `none`. -/
def parseRangeClause (pts : String → Option Int) (rangeMap : List (String × JVal))
    (timestampField : String) : Option TimeRange :=
  match jlookup timestampField rangeMap with
  | none => none
  | some fieldVal =>
    match fieldVal with
    | .jobj bounds =>
      let lo := boundFromKeys pts bounds ["gte", "gt", "from"]
      let hi := boundFromKeys pts bounds ["lte", "lt", "to"]
      if lo = none ∧ hi = none then none
      else some { From := lo, To := hi }
    | _ => none

/-! ## Configuration (internal/config/config.go)

`Load` is modelled from the point where the YAML file has been decoded into
a `Config` value (file reading and YAML decoding are out of scope); it then
applies `setDefaults` and `validate` exactly as the source does.
`net/url.Parse` is abstracted by its only relevant failure mode: it rejects
URLs containing ASCII control characters. -/

structure ServerConfig where
  Listen : String
deriving BEq, Repr

structure TLSConfig where
  SkipVerify : Bool
  CACert : String
deriving BEq, Repr

structure OpenSearchConfig where
  URL : String
  Username : String
  Password : String
  TLS : TLSConfig
deriving BEq, Repr

structure QuickwitConfig where
  URL : String
  Username : String
  Password : String
  TLS : TLSConfig
deriving BEq, Repr

structure RetentionConfig where
  Days : Int
  ColdDays : Int
  TimestampField : String
  IndexFields : List (String × String)
deriving BEq, Repr

structure MigrationConfig where
  Enabled : Bool
  Schedule : String
  MigrateAfterDays : Int
  BatchSize : Int
  Workers : Int
  Compress : Bool
  CheckpointDir : String
  DeleteAfterMigration : Bool
  Indices : List String
deriving BEq, Repr

structure LoggingConfig where
  Level : String
deriving BEq, Repr

structure Config where
  Server : ServerConfig
  OpenSearch : OpenSearchConfig
  Quickwit : QuickwitConfig
  Retention : RetentionConfig
  Migration : MigrationConfig
  Logging : LoggingConfig
deriving BEq, Repr

/-- Go `setDefaults`: fill zero-valued fields.  The source assigns the
defaults one `if` at a time on a mutable config; the assignments are
independent except that the `migrate_after_days` default reads the
already-defaulted `retention.days`, which the `days` binding below
captures. -/
def setDefaults (cfg : Config) : Config :=
  let days := if cfg.Retention.Days ≤ 0 then 30 else cfg.Retention.Days
  let mad0 := days - 5
  let mad1 := if mad0 ≤ 0 then days else mad0
  let mad := if cfg.Migration.MigrateAfterDays ≤ 0 then mad1
             else cfg.Migration.MigrateAfterDays
  { cfg with
    Server := { cfg.Server with
      Listen := if cfg.Server.Listen = "" then ":9200" else cfg.Server.Listen }
    Retention := { cfg.Retention with
      Days := days
      TimestampField := if cfg.Retention.TimestampField = "" then "@timestamp"
                        else cfg.Retention.TimestampField }
    Migration := { cfg.Migration with
      BatchSize := if cfg.Migration.BatchSize ≤ 0 then 5000 else cfg.Migration.BatchSize
      Workers := if cfg.Migration.Workers ≤ 0 then 4 else cfg.Migration.Workers
      MigrateAfterDays := mad
      Schedule := if cfg.Migration.Schedule = "" then "0 * * * *" else cfg.Migration.Schedule
      CheckpointDir := if cfg.Migration.CheckpointDir = "" then "/var/lib/oqbridge"
                       else cfg.Migration.CheckpointDir }
    Logging := { cfg.Logging with
      Level := if cfg.Logging.Level = "" then "info" else cfg.Logging.Level } }

/-- Abstraction of Go `net/url.Parse` failing: it rejects URLs containing
ASCII control characters, which is its only failure mode relevant here. -/
def urlParseFails (s : String) : Bool :=
  s.data.any (fun c => decide (c.toNat < 32) || decide (c.toNat = 127))

/-- Go `validate`: required URLs, URL parsability, and the
`migrate_after_days < retention.days` invariant. -/
def validate (cfg : Config) : Option String :=
  if cfg.OpenSearch.URL = "" then some "opensearch.url is required"
  else if urlParseFails cfg.OpenSearch.URL then some "invalid opensearch.url"
  else if cfg.Quickwit.URL = "" then some "quickwit.url is required"
  else if urlParseFails cfg.Quickwit.URL then some "invalid quickwit.url"
  else if cfg.Retention.Days ≤ cfg.Migration.MigrateAfterDays then
    some "migration.migrate_after_days must be less than retention.days"
  else none

/-- Go `config.Load` from the decoded YAML value onward: apply defaults, then
validate; an error from `validate` makes `Load` fail. -/
def loadConfig (decoded : Config) : Except String Config :=
  let cfg := setDefaults decoded
  match validate cfg with
  | some e => .error e
  | none => .ok cfg

/-! ## Authentication and the cold-only handler
(internal/backend/opensearch.go `Authenticate`,
internal/proxy/proxy.go `handleSearch` / `isAuthError` / `statusFromAuthError`)

A Go `error` value is either the typed `*backend.HTTPStatusError` or an
untyped error built with `fmt.Errorf`; `errors.As` finds the typed variant
(none of the errors below is wrapped). -/

/-- A Go error as the proxy sees it: either the typed
`backend.HTTPStatusError` carrying `(status, url, body)`, or a plain
`fmt.Errorf` string error. -/
inductive GoError where
  | httpStatus (status : Int) (url : String) (body : String)
  | plain (msg : String)
deriving BEq, Repr

/-- Go `OpenSearch.Authenticate`, given the status code of the
`GET /_plugins/_security/authinfo` response: 401 and 403 produce a plain
`fmt.Errorf` error; every other status (including 5xx) returns nil. -/
def authenticate (authinfoStatus : Int) : Option GoError :=
  if authinfoStatus = 401 ∨ authinfoStatus = 403 then
    some (.plain ("authentication failed: " ++ toString authinfoStatus))
  else none

/-- Go `proxy.isAuthError`: `errors.As` into `*backend.HTTPStatusError`, then
status 401 or 403. -/
def isAuthError : Option GoError → Bool
  | none => false
  | some (.httpStatus s _ _) => s = 401 ∨ s = 403
  | some (.plain _) => false

/-- Go `proxy.statusFromAuthError`: 403 for a typed 403 error, else 401. -/
def statusFromAuthError : Option GoError → Int
  | some (.httpStatus 403 _ _) => 403
  | _ => 401

/-- Go `proxy.authenticateViaOpenSearch`: empty header short-circuits with a
plain error, otherwise `Authenticate` decides. -/
def authenticateViaOpenSearch (authHeader : String) (authinfoStatus : Int) :
    Option GoError :=
  if authHeader = "" then some (.plain "no authorization header")
  else authenticate authinfoStatus

/-- Outcome of the proxy's cold-only branch. -/
inductive ColdOnlyOutcome where
  | reject (status : Int)
  | coldData (resp : SearchResponse)
  | passthroughHot
deriving BEq, Repr

/-- The `RouteColdOnly` branch of Go `proxy.handleSearch`: authenticate
against the hot store; on failure answer with the computed status; on success
issue the cold search, answering with its data or falling back to hot
passthrough.  The returned `Bool` records whether the cold-store search was
issued. -/
def handleColdOnly (authHeader : String) (authinfoStatus : Int)
    (coldResult : Except GoError SearchResponse) : Bool × ColdOnlyOutcome :=
  match authenticateViaOpenSearch authHeader authinfoStatus with
  | some err =>
    let status : Int :=
      if authHeader = "" ∨ isAuthError (some err) then statusFromAuthError (some err)
      else 502
    (false, .reject status)
  | none =>
    match coldResult with
    | .ok r => (true, .coldData r)
    | .error _ => (true, .passthroughHot)

/-! ## Distributed lock (internal/backend/opensearch_lock.go)

`tryCreate` is a single `PUT .../_doc/{key}?op_type=create&refresh=true`; its
behaviour is a function of the response status.  `Acquire` consumes at most
two create responses: the initial attempt and, after a 404 plus lock-index
creation, exactly one retry.  The pre-acquire expired-lock cleanup touches
only server state and never changes the control flow (its errors are
swallowed), so it is omitted from the model. -/

/-- Name of the lock coordination index. -/
def lockIndexName : String := ".oqbridge-locks"

/-- An outbound HTTP request, as far as the lock claims inspect it. -/
structure HTTPRequest where
  method : String
  url : String
deriving BEq, Repr

/-- The request built by Go `OpenSearchLock.tryCreate`. -/
def tryCreateRequest (baseURL key : String) : HTTPRequest :=
  { method := "PUT"
    url := baseURL ++ "/" ++ lockIndexName ++ "/_doc/" ++ key ++ "?op_type=create&refresh=true" }

/-- Classification of a `tryCreate` response status, mirroring the Go switch. -/
inductive TryCreateOutcome where
  | acquired
  | held
  | indexMissing
  | failed (status : Int)
deriving BEq, Repr

/-- Go `tryCreate` response handling: 409 means held, 404 means the lock
index is missing, any other status at least 400 is an error, and everything
else (the 2xx responses) acquires the lock. -/
def tryCreateOutcome (status : Int) : TryCreateOutcome :=
  if status = 409 then .held
  else if status = 404 then .indexMissing
  else if 400 ≤ status then .failed status
  else .acquired

/-- Result of Go `OpenSearchLock.Acquire`: whether the lock was acquired, the
error if any, and how many atomic-create attempts were issued. -/
structure AcquireResult where
  acquired : Bool
  err : Option String
  createAttempts : Nat
deriving BEq, Repr

/-- Go `OpenSearchLock.Acquire`: one create attempt; on a missing lock index,
create the index and retry the create exactly once (a second 404 is returned
as an error, not retried). -/
def acquireLock (firstStatus : Int) (ensureIndexOk : Bool) (secondStatus : Int) :
    AcquireResult :=
  match tryCreateOutcome firstStatus with
  | .acquired => { acquired := true, err := none, createAttempts := 1 }
  | .held => { acquired := false, err := none, createAttempts := 1 }
  | .failed s => { acquired := false, err := some ("lock acquire failed: status=" ++ toString s),
                   createAttempts := 1 }
  | .indexMissing =>
    if ensureIndexOk then
      match tryCreateOutcome secondStatus with
      | .acquired => { acquired := true, err := none, createAttempts := 2 }
      | .held => { acquired := false, err := none, createAttempts := 2 }
      | .failed s => { acquired := false,
                       err := some ("lock acquire failed: status=" ++ toString s),
                       createAttempts := 2 }
      | .indexMissing => { acquired := false,
                           err := some ("lock index " ++ lockIndexName ++ " does not exist"),
                           createAttempts := 2 }
    else { acquired := false, err := some "creating lock index", createAttempts := 1 }

/-! ## Migration (internal/migration/migrator.go, transformer in part_004,
checkpoint store in internal/migration/checkpoint.go)

The per-index run is modelled as a pure state transition.  Store operations
are modelled as always succeeding (their errors only produce warnings on the
paths the claims concern).  Worker outcomes and the delete-by-query outcome
are parameters; workers' serialized checkpoint updates are folded in slice-id
order, which fixes one of the orders the mutex can produce. -/

/-- Go `migration.Checkpoint`. -/
structure Checkpoint where
  Index : String
  StartedAt : Int
  UpdatedAt : Int
  TotalDocs : Int
  Migrated : Int
  SlicesDone : List Nat
  Completed : Bool
  CutoffTime : Int
deriving BEq, Repr

/-- Go `migration.Watermark`. -/
structure Watermark where
  Index : String
  MigratedBefore : Int
  UpdatedAt : Int
deriving BEq, Repr

/-- Persistent checkpoint-store state for a single index. -/
structure StoreState where
  checkpoint : Option Checkpoint
  watermark : Option Watermark
deriving BEq, Repr

/-- Go `CheckpointStore.Load`: a missing or completed checkpoint loads as
absent. -/
def storeLoad (s : StoreState) : Option Checkpoint :=
  match s.checkpoint with
  | none => none
  | some cp => if cp.Completed then none else some cp

/-- Go `CheckpointStore.Save`: persist the checkpoint, stamping
`updated_at`. -/
def storeSave (s : StoreState) (cp : Checkpoint) (now : Int) : StoreState :=
  { s with checkpoint := some { cp with UpdatedAt := now } }

/-- Go `Checkpoint.IsSliceDone`. -/
def isSliceDone (cp : Checkpoint) (sliceID : Nat) : Bool :=
  cp.SlicesDone.contains sliceID

/-- Go `CheckpointStore.MarkComplete`: load (or start fresh), set
`completed`, save. -/
def storeMarkComplete (s : StoreState) (index : String) (now : Int) : StoreState :=
  let cp :=
    match storeLoad s with
    | some cp => cp
    | none => { Index := index, StartedAt := 0, UpdatedAt := 0, TotalDocs := 0,
                Migrated := 0, SlicesDone := [], Completed := false, CutoffTime := 0 }
  storeSave s { cp with Completed := true } now

/-- Go `CheckpointStore.SaveWatermark`. -/
def storeSaveWatermark (s : StoreState) (wm : Watermark) (now : Int) : StoreState :=
  { s with watermark := some { wm with UpdatedAt := now } }

/-- Go `time.Time.AddDate(0, 0, d)` on a UTC instant in epoch milliseconds. -/
def addDaysUTC (t : Int) (d : Int) : Int := t + d * 86400000

/-- Go `TransformDocument` (part_004): extract `_source` from a scroll hit;
a hit that is not a JSON object fails its unmarshal, and a hit without
`_source` is an error — never ingested raw. -/
def TransformDocument (hit : JVal) : Except String JVal :=
  match hit with
  | .jobj doc =>
    match jlookup "_source" doc with
    | some src => .ok src
    | none => .error "hit missing _source field"
  | _ => .error "parsing hit"

/-- Loop body of Go `TransformBatch`, carrying the hit index for the error
message. -/
def transformBatchAux (i : Nat) : List JVal → Except String (List JVal)
  | [] => .ok []
  | h :: t =>
    match TransformDocument h with
    | .error e => .error ("transforming hit " ++ toString i ++ ": " ++ e)
    | .ok d =>
      match transformBatchAux (i + 1) t with
      | .error e => .error e
      | .ok ds => .ok (d :: ds)

/-- Go `TransformBatch` (part_004): transform every hit of a batch; the first
failing hit fails the whole batch. -/
def TransformBatch (hits : List JVal) : Except String (List JVal) :=
  transformBatchAux 0 hits

/-- The scroll/transform/ingest loop of Go `Migrator.migrateSlice`, over the
sequence of non-empty scroll batches of the slice.  `ingestOk` is the
cold-store `BulkIngest` outcome for a batch of transformed documents.
Returns the batches that reached the cold store and the slice error, if
any. -/
def migrateSliceLoop (ingestOk : List JVal → Bool) :
    List (List JVal) → List (List JVal) → List (List JVal) × Option String
  | ingested, [] => (ingested, none)
  | ingested, b :: rest =>
    match TransformBatch b with
    | .error e => (ingested, some ("transforming batch: " ++ e))
    | .ok docs =>
      if ingestOk docs then migrateSliceLoop ingestOk (ingested ++ [docs]) rest
      else (ingested, some "ingesting batch")

/-- Go `Migrator.migrateSlice` from the first scroll result onward. -/
def migrateSliceRun (ingestOk : List JVal → Bool) (batches : List (List JVal)) :
    List (List JVal) × Option String :=
  migrateSliceLoop ingestOk [] batches

/-- The transformed documents of a batch (its ingest payload); empty for a
batch whose transform fails — such a batch is never ingested. -/
def transformedOf (b : List JVal) : List JVal :=
  match TransformBatch b with
  | .ok ds => ds
  | .error _ => []

/-- Configuration slice used by `MigrateIndex`. -/
structure MigCfg where
  workers : Nat
  migrateAfterDays : Int
  deleteAfterMigration : Bool
deriving BEq, Repr

/-- Result of one modelled `MigrateIndex` run. -/
structure MigRunResult where
  store : StoreState
  launched : List Nat
  err : Option String
  skippedLockHeld : Bool
deriving BEq, Repr

/-- A fresh checkpoint as `MigrateIndex` initializes it when none loads. -/
def freshCheckpoint (index : String) (now : Int) : Checkpoint :=
  { Index := index, StartedAt := now, UpdatedAt := 0, TotalDocs := 0,
    Migrated := 0, SlicesDone := [], Completed := false, CutoffTime := 0 }

/-- Fold the checkpoint updates of the successful workers (Go: each worker,
under the checkpoint mutex, appends its slice id when absent, adds its count,
and saves). -/
def applyWorkerUpdates (workerRun : Nat → Except String Int) (cp : Checkpoint) :
    List Nat → Checkpoint
  | [] => cp
  | i :: rest =>
    match workerRun i with
    | .error _ => applyWorkerUpdates workerRun cp rest
    | .ok n =>
      let cp := if isSliceDone cp i then cp
                else { cp with SlicesDone := cp.SlicesDone ++ [i] }
      applyWorkerUpdates workerRun { cp with Migrated := cp.Migrated + n } rest

/-- Errors of the launched workers, in slice order. -/
def workerErrors (workerRun : Nat → Except String Int) (launched : List Nat) : List String :=
  launched.filterMap (fun i =>
    match workerRun i with
    | .error e => some ("slice " ++ toString i ++ ": " ++ e)
    | .ok _ => none)

/-- Total documents migrated by the launched workers. -/
def totalMigrated (workerRun : Nat → Except String Int) (launched : List Nat) : Int :=
  (launched.map (fun i => match workerRun i with | .ok n => n | .error _ => 0)).sum

/-- The body of Go `Migrator.MigrateIndex` after the lock and
ensure-cold-index guards: load the checkpoint and watermark, compute the
cutoff, snapshot `slices_done`, launch one worker per not-yet-done slice in
`[0, workers)`, then either save the checkpoint and fail (worker errors),
fail on a failing delete-by-query, or mark the checkpoint complete and save
the watermark at the cutoff. -/
def migrateIndexCore (cfg : MigCfg) (index : String) (store0 : StoreState)
    (workerRun : Nat → Except String Int) (deleteOk : Bool) (now : Int) : MigRunResult :=
  let cutoffTime := addDaysUTC now (- cfg.migrateAfterDays)
  let cp0 := storeLoad store0
  let cp := match cp0 with | some cp => cp | none => freshCheckpoint index now
  let doneSlices := cp.SlicesDone
  let launched := (List.range cfg.workers).filter (fun i => ¬ doneSlices.contains i)
  let errs := workerErrors workerRun launched
  let cpAfter := applyWorkerUpdates workerRun cp launched
  let anySaved := launched.any (fun i => (workerRun i).isOk)
  let storeAfter := if anySaved then storeSave store0 cpAfter now else store0
  if errs ≠ [] then
    { store := storeSave storeAfter cpAfter now, launched := launched,
      err := some ("migration had " ++ toString errs.length ++ " slice errors"),
      skippedLockHeld := false }
  else
    let migrated := totalMigrated workerRun launched
    if cfg.deleteAfterMigration ∧ migrated > 0 ∧ ¬ deleteOk then
      { store := storeAfter, launched := launched,
        err := some "deleting migrated documents", skippedLockHeld := false }
    else
      let store1 := storeMarkComplete storeAfter index now
      let store2 := storeSaveWatermark store1
        { Index := index, MigratedBefore := cutoffTime, UpdatedAt := 0 } now
      { store := store2, launched := launched, err := none, skippedLockHeld := false }

/-- Go `Migrator.MigrateIndex` as a state transition.  Parameters:
`lockOutcome` is `none` when no distributed lock is configured, otherwise the
`Acquire` result; `ensureColdOk` is the outcome of ensuring the cold index;
`workerRun` gives each slice worker's outcome (documents migrated or error);
`deleteOk` is the delete-by-query outcome; `now` is the run's wall clock. -/
def MigrateIndex (cfg : MigCfg) (index : String)
    (lockOutcome : Option (Except String Bool)) (ensureColdOk : Bool)
    (store0 : StoreState) (workerRun : Nat → Except String Int)
    (deleteOk : Bool) (now : Int) : MigRunResult :=
  match lockOutcome with
  | some (.error e) =>
    { store := store0, launched := [], err := some ("acquiring migration lock: " ++ e),
      skippedLockHeld := false }
  | some (.ok false) =>
    { store := store0, launched := [], err := none, skippedLockHeld := true }
  | _ =>
    if ¬ ensureColdOk then
      { store := store0, launched := [], err := some "ensuring quickwit index",
        skippedLockHeld := false }
    else
      migrateIndexCore cfg index store0 workerRun deleteOk now

/-- A decoded configuration with `retention.days = 0`, valid URLs, and all
other fields zero-valued. -/
def cfgDaysZero : Config :=
  { Server := { Listen := "" }
    OpenSearch := { URL := "http://os:9200", Username := "", Password := "",
                    TLS := { SkipVerify := false, CACert := "" } }
    Quickwit := { URL := "http://qw:7280", Username := "", Password := "",
                  TLS := { SkipVerify := false, CACert := "" } }
    Retention := { Days := 0, ColdDays := 0, TimestampField := "", IndexFields := [] }
    Migration := { Enabled := false, Schedule := "", MigrateAfterDays := 0,
                   BatchSize := 0, Workers := 0, Compress := false,
                   CheckpointDir := "", DeleteAfterMigration := false, Indices := [] }
    Logging := { Level := "" } }

/-- A concrete cold-store search response with one hit. -/
def coldRespEx : SearchResponse :=
  { took := 10, timedOut := false, shards := ""
    hits := { total := { value := 1, relation := "eq" }
              maxScore := some 1
              hits := [{ score := some 1, payload := "cold-hit" }] }
    aggregations := none }

/-- A checkpoint recording slice 0 as done (2 workers, nothing completed). -/
def cpSliceZeroDone : Checkpoint :=
  { Index := "logs", StartedAt := 0, UpdatedAt := 0, TotalDocs := 0,
    Migrated := 2, SlicesDone := [0], Completed := false, CutoffTime := 0 }

/-- Store state holding `cpSliceZeroDone` and no watermark. -/
def storeSliceZeroDone : StoreState :=
  { checkpoint := some cpSliceZeroDone, watermark := none }

/-- The checkpoint state left behind by the C6 counterexample run: slice 0
done, 5 documents migrated, not completed. -/
def cpAfterDeleteFail : Checkpoint :=
  { Index := "logs", StartedAt := 0, UpdatedAt := 0, TotalDocs := 0,
    Migrated := 5, SlicesDone := [0], Completed := false, CutoffTime := 0 }

/-- Hot response of the pagination seed scenario: scores 3 and 1. -/
def hotMergeEx : SearchResponse :=
  { took := 1, timedOut := false, shards := ""
    hits := { total := { value := 2, relation := "eq" }
              maxScore := some 3
              hits := [{ score := some 3, payload := "hot1" },
                       { score := some 1, payload := "hot2" }] }
    aggregations := none }

/-- Cold response of the pagination seed scenario: scores 2 and 0. -/
def coldMergeEx : SearchResponse :=
  { took := 1, timedOut := false, shards := ""
    hits := { total := { value := 2, relation := "eq" }
              maxScore := some 2
              hits := [{ score := some 2, payload := "cold1" },
                       { score := some 0, payload := "cold2" }] }
    aggregations := none }

/-- Merge directive of the pagination seed scenario. -/
def optsMergeEx : MergeOptions :=
  { From := 1, Size := 2, ScoreAsc := false, Paginate := true }

/-! ## Helper lemmas -/

theorem jlookup_jset_same (key : String) (v : JVal) (m : List (String × JVal)) :
    jlookup key (jset key v m) = some v := by
  induction m with
  | nil => simp [jset, jlookup]
  | cons kv rest ih =>
    obtain ⟨k, w⟩ := kv
    by_cases h : k = key
    · simp [jset, h, jlookup]
    · simp [jset, h, jlookup, ih]

theorem jlookup_jset_other (key key' : String) (hne : key ≠ key') (v : JVal)
    (m : List (String × JVal)) : jlookup key (jset key' v m) = jlookup key m := by
  have hne' : key' ≠ key := Ne.symm hne
  induction m with
  | nil => simp [jset, jlookup, hne']
  | cons kv rest ih =>
    obtain ⟨k, w⟩ := kv
    by_cases h : k = key'
    · subst h
      simp [jset, jlookup, hne']
    · by_cases h2 : k = key
      · subst h2
        simp [jset, jlookup, h, ih]
      · simp [jset, h, jlookup, h2, ih]

theorem insertStable_perm (less : α → α → Bool) (x : α) (l : List α) :
    (insertStable less x l).Perm (x :: l) := by
  induction l with
  | nil => simp [insertStable]
  | cons y ys ih =>
    cases hle : less y x with
    | true =>
      simp only [insertStable, hle, if_true]
      exact (ih.cons y).trans (List.Perm.swap x y ys)
    | false => simp [insertStable, hle]

theorem stableSortBy_perm (less : α → α → Bool) (l : List α) :
    (stableSortBy less l).Perm l := by
  induction l with
  | nil => simp [stableSortBy]
  | cons x xs ih =>
    exact (insertStable_perm less x (stableSortBy less xs)).trans (ih.cons x)

theorem insertStable_pairwise (less : α → α → Bool)
    (hasym : ∀ a b, less a b = true → less b a = false)
    (hcot : ∀ a b c, less b a = false → less c b = false → less c a = false)
    (x : α) (l : List α) (hl : l.Pairwise (fun a b => less b a = false)) :
    (insertStable less x l).Pairwise (fun a b => less b a = false) := by
  induction l with
  | nil => simp [insertStable]
  | cons y ys ih =>
    rcases List.pairwise_cons.mp hl with ⟨hy, hys⟩
    cases hle : less y x with
    | true =>
      simp only [insertStable, hle, if_true]
      refine List.pairwise_cons.mpr ⟨?_, ih hys⟩
      intro z hz
      have hz' : z ∈ x :: ys := (insertStable_perm less x ys).mem_iff.mp hz
      rcases List.mem_cons.mp hz' with hz' | hz'
      · rw [hz']
        exact hasym y x hle
      · exact hy z hz'
    | false =>
      simp only [insertStable, hle, Bool.false_eq_true, if_false]
      refine List.pairwise_cons.mpr ⟨?_, hl⟩
      intro z hz
      rcases List.mem_cons.mp hz with hz | hz
      · rw [hz]
        exact hle
      · exact hcot x y z hle (hy z hz)

theorem stableSortBy_pairwise (less : α → α → Bool)
    (hasym : ∀ a b, less a b = true → less b a = false)
    (hcot : ∀ a b c, less b a = false → less c b = false → less c a = false)
    (l : List α) :
    (stableSortBy less l).Pairwise (fun a b => less b a = false) := by
  induction l with
  | nil => simp [stableSortBy]
  | cons x xs ih => exact insertStable_pairwise less hasym hcot x _ ih

theorem filter_insertStable (less : α → α → Bool) (p : α → Bool)
    (htie : ∀ a b, p a = true → p b = true → less a b = false)
    (x : α) (l : List α) :
    (insertStable less x l).filter p =
      (if p x then x :: l.filter p else l.filter p) := by
  induction l with
  | nil => cases hpx : p x <;> simp [insertStable, List.filter, hpx]
  | cons y ys ih =>
    cases hle : less y x with
    | false =>
      cases hpx : p x <;> cases hpy : p y <;>
        simp [insertStable, hle, List.filter, hpx, hpy]
    | true =>
      simp only [insertStable, hle, if_true]
      cases hpy : p y with
      | false => cases hpx : p x <;> simp [List.filter, hpy, hpx, ih]
      | true =>
        have hpx : p x = false := by
          cases hpx : p x
          · rfl
          · have h2 := htie y x hpy hpx
            rw [h2] at hle
            cases hle
        simp [List.filter, hpy, hpx, ih]

theorem filter_stableSortBy (less : α → α → Bool) (p : α → Bool)
    (htie : ∀ a b, p a = true → p b = true → less a b = false) (l : List α) :
    (stableSortBy less l).filter p = l.filter p := by
  induction l with
  | nil => simp [stableSortBy]
  | cons x xs ih =>
    rw [stableSortBy, filter_insertStable less p htie]
    cases hpx : p x <;> simp [List.filter, hpx, ih]

/-- The bound-selection loop returns the first key, in order, that is both
present and parseable. -/
theorem boundFromKeys_eq_head (pts : String → Option Int)
    (bounds : List (String × JVal)) (keys : List String) :
    boundFromKeys pts bounds keys =
      (keys.filterMap (fun k => (jlookup k bounds).bind (parseTimeValue pts))).head? := by
  induction keys with
  | nil => simp [boundFromKeys]
  | cons k ks ih =>
    cases hk : jlookup k bounds with
    | none => simp [boundFromKeys, hk, List.filterMap_cons, ih]
    | some v =>
      cases hv : parseTimeValue pts v with
      | none => simp [boundFromKeys, hk, hv, List.filterMap_cons, ih]
      | some t => simp [boundFromKeys, hk, hv, List.filterMap_cons]

/-! ## Claim C3: routing decision table -/

/-- C3.  For every extracted time range (or none) and cutoff
`now_utc - hot_days`, the router decides exactly as the specification's
table states: BOTH when no range was extracted; with both bounds set, COLD
when `To < cutoff`, HOT when `From ≥ cutoff`, otherwise BOTH; with only
`From`, HOT when `From ≥ cutoff` else BOTH; with only `To`, COLD when
`To < cutoff` else BOTH.  A range with both bounds absent is never produced
by the extractor, which the well-formedness hypothesis reflects. -/
theorem c3_route_matches_spec_table (tr : Option TimeRange) (cutoff : Int)
    (hwf : ∀ r, tr = some r → (r.From ≠ none ∨ r.To ≠ none)) :
    route tr cutoff = routeSpecTable tr cutoff := by
  match tr with
  | none => rfl
  | some r =>
    have h := hwf r rfl
    match hF : r.From, hT : r.To with
    | some f, some t =>
      simp only [route, routeSpecTable, hF, hT]
      split_ifs <;> simp_all <;> omega
    | some f, none =>
      simp only [route, routeSpecTable, hF, hT]
      split_ifs <;> first
        | rfl
        | (simp_all; omega)
        | simp_all
    | none, some t =>
      simp only [route, routeSpecTable, hF, hT]
      split_ifs <;> simp_all
    | none, none =>
      rw [hF, hT] at h
      simp at h

/-- Witness for C3 at a concrete straddling range. -/
theorem c3_route_matches_spec_table_witness :
    route (some { From := some 0, To := some 10 }) 5 =
      routeSpecTable (some { From := some 0, To := some 10 }) 5 :=
  c3_route_matches_spec_table (some { From := some 0, To := some 10 }) 5
    (fun r hr => by cases hr; simp)

/-! ## Claim C8: bound selection inside a matched range clause -/

/-- C8 counterexample.  The claim says the lower bound is read from the first
present key among gte, gt, from — so a present `gte` alone would determine
it.  In the code, a present `gte` whose value fails to parse (here: JSON
null) is skipped and `gt` supplies the bound: varying only `gt` changes the
extracted `From` while `gte` stays fixed. -/
theorem c8_counterexample :
    parseRangeClause (fun _ => none)
        [("@timestamp", .jobj [("gte", .jnull), ("gt", .jnum 1000)])] "@timestamp" =
      some { From := some 1000, To := none } ∧
    parseRangeClause (fun _ => none)
        [("@timestamp", .jobj [("gte", .jnull), ("gt", .jnum 2000)])] "@timestamp" =
      some { From := some 2000, To := none } := by
  exact ⟨rfl, rfl⟩

/-- C8 as amended.  Within a matched range clause, the extractor reads the
lower bound from the first key among gte, gt, from that is present AND whose
value parses — a present key with an unparseable value is skipped and a later
key may supply the bound — and symmetrically the upper bound from
lte, lt, to. -/
theorem c8_first_present_parseable_key_wins (pts : String → Option Int)
    (rangeMap : List (String × JVal)) (tf : String) (bounds : List (String × JVal))
    (hfield : jlookup tf rangeMap = some (.jobj bounds)) :
    parseRangeClause pts rangeMap tf =
      (let lo := (["gte", "gt", "from"].filterMap
        (fun k => (jlookup k bounds).bind (parseTimeValue pts))).head?
       let hi := (["lte", "lt", "to"].filterMap
        (fun k => (jlookup k bounds).bind (parseTimeValue pts))).head?
       if lo = none ∧ hi = none then none else some { From := lo, To := hi }) := by
  simp only [parseRangeClause, hfield, boundFromKeys_eq_head]

/-- Witness for C8's amended theorem: an unparseable `gte` skipped in favor
of a parseable `gt`. -/
theorem c8_first_present_parseable_key_wins_witness :
    parseRangeClause (fun _ => none)
        [("ts", .jobj [("gte", .jbool true), ("gt", .jnum 7)])] "ts" =
      (let lo := (["gte", "gt", "from"].filterMap
        (fun k => (jlookup k [("gte", JVal.jbool true), ("gt", JVal.jnum 7)]).bind
          (parseTimeValue (fun _ => none)))).head?
       let hi := (["lte", "lt", "to"].filterMap
        (fun k => (jlookup k [("gte", JVal.jbool true), ("gt", JVal.jnum 7)]).bind
          (parseTimeValue (fun _ => none)))).head?
       if lo = none ∧ hi = none then none else some { From := lo, To := hi }) :=
  c8_first_present_parseable_key_wins (fun _ => none) _ "ts"
    [("gte", JVal.jbool true), ("gt", JVal.jnum 7)] rfl

/-! ## Claim C9: retention.days = 0 at config validation -/

/-- C9 counterexample.  A configuration with `retention.days = 0` is NOT
rejected: `Load` succeeds, with the day count defaulted to 30. -/
theorem c9_counterexample :
    ∃ c, loadConfig cfgDaysZero = .ok c ∧
      c.Retention.Days = 30 ∧ c.Migration.MigrateAfterDays = 25 := by
  refine ⟨setDefaults cfgDaysZero, ?_, ?_, ?_⟩ <;> rfl

/-- C9 as amended.  A configuration with non-positive `retention.days` (and
unset `migrate_after_days`, with valid URLs) is not rejected at validation:
`setDefaults` replaces `retention.days` with 30 and derives
`migrate_after_days = 25`, and the invariant
`migrate_after_days < retention.days` is only enforced on these defaulted
values, so `Load` succeeds. -/
theorem c9_days_zero_defaults_to_30 (cfg : Config)
    (hdays : cfg.Retention.Days ≤ 0)
    (hmad : cfg.Migration.MigrateAfterDays ≤ 0)
    (hos : cfg.OpenSearch.URL ≠ "")
    (hosok : urlParseFails cfg.OpenSearch.URL = false)
    (hqw : cfg.Quickwit.URL ≠ "")
    (hqwok : urlParseFails cfg.Quickwit.URL = false) :
    ∃ c, loadConfig cfg = .ok c ∧
      c.Retention.Days = 30 ∧ c.Migration.MigrateAfterDays = 25 := by
  refine ⟨setDefaults cfg, ?_, ?_, ?_⟩
  · simp [loadConfig, validate, setDefaults, hdays, hmad, hos, hosok, hqw, hqwok]
  · simp [setDefaults, hdays]
  · simp [setDefaults, hdays, hmad]

/-- Witness for C9's amended theorem at the concrete days-zero config. -/
theorem c9_days_zero_defaults_to_30_witness :
    ∃ c, loadConfig cfgDaysZero = .ok c ∧
      c.Retention.Days = 30 ∧ c.Migration.MigrateAfterDays = 25 :=
  c9_days_zero_defaults_to_30 cfgDaysZero (by decide) (by decide) (by decide)
    (by decide) (by decide) (by decide)

/-! ## Claim C5: fan-out planner pagination rewrite -/

/-- C5.  A body that is not valid JSON passes through unchanged with
`paginate = false` and no error; and every valid-JSON body the planner
accepts (score-only or absent sort, no `search_after`, no `pit`) is rewritten
so the backend body has `from = 0` and `size = from + size` of the clamped
pagination values (`0` when `size = 0`), with merge directive
`(from, size, score_asc, paginate = true)`. -/
theorem c5_planner_rewrites_pagination (m : List (String × JVal)) (sa : Bool)
    (hsort : parseScoreSort (jlookup "sort" m) = (sa, true))
    (hafter : jlookup "search_after" m = none)
    (hpit : jlookup "pit" m = none) :
    (∀ s, planFanout (.raw s) =
      ({ Body := .raw s
         Merge := { From := 0, Size := 10, ScoreAsc := false, Paginate := false } }, none)) ∧
    ∃ m1 from1 size1, planFanout (.obj m) =
        ({ Body := .obj m1
           Merge := { From := from1, Size := size1, ScoreAsc := sa, Paginate := true } },
          none) ∧
      from1 = (if getInt m "from" 0 < 0 then 0 else getInt m "from" 0) ∧
      size1 = (if getInt m "size" 10 < 0 then 0 else getInt m "size" 10) ∧
      jlookup "from" m1 = some (.jnum 0) ∧
      jlookup "size" m1 = some (.jnum (if size1 = 0 then 0 else from1 + size1)) := by
  refine ⟨fun s => rfl, ?_⟩
  set f0 := getInt m "from" 0 with hf0
  set s0 := getInt m "size" 10 with hs0
  set f1 : Int := if f0 < 0 then 0 else f0 with hf1
  set s1 : Int := if s0 < 0 then 0 else s0 with hs1
  set needC : Int := if s1 = 0 then 0 else if s1 > 0 ∧ f1 > 0 then f1 + s1 else s1
    with hneedC
  have h0f : 0 ≤ f1 := by rw [hf1]; split_ifs <;> omega
  have h0s : 0 ≤ s1 := by rw [hs1]; split_ifs <;> omega
  have hneed : needC = if s1 = 0 then 0 else f1 + s1 := by
    rw [hneedC]
    split_ifs <;> omega
  refine ⟨jset "size" (.jnum needC) (jset "from" (.jnum 0) m), f1, s1, ?_, rfl, rfl, ?_, ?_⟩
  · simp only [planFanout, hsort, hafter, hpit]
    simp [hf0, hs0, hf1, hs1, hneedC]
  · rw [jlookup_jset_other "from" "size" (by decide), jlookup_jset_same]
  · rw [jlookup_jset_same, hneed]

/-- Witness for C5 at the concrete body of the pagination seed scenario,
`from = 1`, `size = 1`, no sort. -/
theorem c5_planner_rewrites_pagination_witness :
    (∀ s, planFanout (.raw s) =
      ({ Body := .raw s
         Merge := { From := 0, Size := 10, ScoreAsc := false, Paginate := false } }, none)) ∧
    ∃ m1 from1 size1,
      planFanout (.obj [("from", JVal.jnum 1), ("size", JVal.jnum 1)]) =
        ({ Body := .obj m1
           Merge := { From := from1, Size := size1, ScoreAsc := false, Paginate := true } },
          none) ∧
      from1 = (if getInt [("from", JVal.jnum 1), ("size", JVal.jnum 1)] "from" 0 < 0 then 0
               else getInt [("from", JVal.jnum 1), ("size", JVal.jnum 1)] "from" 0) ∧
      size1 = (if getInt [("from", JVal.jnum 1), ("size", JVal.jnum 1)] "size" 10 < 0 then 0
               else getInt [("from", JVal.jnum 1), ("size", JVal.jnum 1)] "size" 10) ∧
      jlookup "from" m1 = some (.jnum 0) ∧
      jlookup "size" m1 = some (.jnum (if size1 = 0 then 0 else from1 + size1)) :=
  c5_planner_rewrites_pagination [("from", JVal.jnum 1), ("size", JVal.jnum 1)] false
    rfl rfl rfl

/-! ## Claims C1 and C2: cold-only authentication against the hot store

Both claims fail on the shipped code, which contradicts the repository's own
tests: `Authenticate` returns nil for an authinfo status of 500 and wraps
401/403 in an untyped `fmt.Errorf` error, while the tests
(`TestOpenSearch_Authenticate_StatusCodes`,
`TestProxy_ColdOnly_OpenSearchAuthError_ReturnsBadGateway`,
`TestProxy_ColdOnly_InvalidAuth`) require a typed `HTTPStatusError` so that
500 maps to 502 (without cold access) and 401/403 map to themselves. -/

/-- C1 (code bug).  With a non-empty Authorization header and the hot
store's authinfo check answering 500, `Authenticate` returns nil — the
shipped code treats the inconclusive check as success, issues the cold-store
search and returns the cold data, instead of answering 502 without cold
access as the claim (and the repository's own tests) require. -/
theorem c1_authinfo_500_reaches_cold_store :
    authenticate 500 = none ∧
    handleColdOnly "Basic dXNlcjpwYXNz" 500 (.ok coldRespEx) =
      (true, .coldData coldRespEx) := by
  exact ⟨rfl, rfl⟩

/-- C2 (code bug).  With a non-empty Authorization header and authinfo
answering 401 (or 403), `Authenticate` yields an untyped error, so
`isAuthError` — which reflects only on the typed `HTTPStatusError` — reports
false and the proxy answers 502 instead of surfacing 401/403 as the claim
(and the repository's own tests) require. -/
theorem c2_authinfo_401_maps_to_502 :
    isAuthError (authenticate 401) = false ∧
    isAuthError (authenticate 403) = false ∧
    handleColdOnly "Basic dXNlcjpwYXNz" 401 (.ok coldRespEx) = (false, .reject 502) ∧
    handleColdOnly "Basic dXNlcjpwYXNz" 403 (.ok coldRespEx) = (false, .reject 502) := by
  exact ⟨rfl, rfl, rfl, rfl⟩

/-! ## Claim C7: lock acquisition -/

/-- C7.  Lock acquisition is an atomic create
(`PUT /{lockIndex}/_doc/{key}?op_type=create&refresh=true`); a 2xx response
acquires the lock; a 409 returns held-without-error and the migrator then
skips the index returning no error; a 404 triggers one-shot creation of the
lock index followed by exactly one retry of the create (a second 404 is an
error, not another retry). -/
theorem c7_lock_acquire_contract :
    (∀ base key, tryCreateRequest base key =
      { method := "PUT"
        url := base ++ "/" ++ ".oqbridge-locks" ++ "/_doc/" ++ key ++
          "?op_type=create&refresh=true" }) ∧
    (∀ s : Int, 200 ≤ s → s ≤ 299 → ∀ e s2, acquireLock s e s2 =
      { acquired := true, err := none, createAttempts := 1 }) ∧
    (∀ e s2, acquireLock 409 e s2 =
      { acquired := false, err := none, createAttempts := 1 }) ∧
    (∀ cfg index ensureColdOk store0 workerRun deleteOk now,
      MigrateIndex cfg index (some (.ok false)) ensureColdOk store0 workerRun deleteOk now =
        { store := store0, launched := [], err := none, skippedLockHeld := true }) ∧
    (∀ s2 : Int, 200 ≤ s2 → s2 ≤ 299 → acquireLock 404 true s2 =
      { acquired := true, err := none, createAttempts := 2 }) ∧
    ((acquireLock 404 true 404).createAttempts = 2 ∧
      (acquireLock 404 true 404).acquired = false ∧
      (acquireLock 404 true 404).err ≠ none) ∧
    (∀ s e s2, s ≠ 404 → (acquireLock s e s2).createAttempts = 1) := by
  refine ⟨fun base key => rfl, ?_, fun e s2 => rfl, fun _ _ _ _ _ _ _ => rfl, ?_, ?_, ?_⟩
  · intro s h1 h2 e s2
    have h409 : ¬ s = 409 := by omega
    have h404 : ¬ s = 404 := by omega
    have h400 : ¬ (400 ≤ s) := by omega
    simp [acquireLock, tryCreateOutcome, h409, h404, h400]
  · intro s2 h1 h2
    have h409 : ¬ s2 = 409 := by omega
    have h404 : ¬ s2 = 404 := by omega
    have h400 : ¬ (400 ≤ s2) := by omega
    simp [acquireLock, tryCreateOutcome, h409, h404, h400]
  · refine ⟨rfl, rfl, ?_⟩
    simp [acquireLock, tryCreateOutcome]
  · intro s e s2 hne
    by_cases h409 : s = 409
    · simp [acquireLock, tryCreateOutcome, h409]
    · by_cases h400 : 400 ≤ s
      · simp [acquireLock, tryCreateOutcome, h409, hne, h400]
      · simp [acquireLock, tryCreateOutcome, h409, hne, h400]

/-- Witness for C7: a 201 acquires on the first attempt; after a 404 and
index creation, a 201 on the single retry acquires. -/
theorem c7_lock_acquire_contract_witness :
    acquireLock 201 true 0 = { acquired := true, err := none, createAttempts := 1 } ∧
    acquireLock 404 true 201 = { acquired := true, err := none, createAttempts := 2 } :=
  ⟨c7_lock_acquire_contract.2.1 201 (by decide) (by decide) true 0,
   c7_lock_acquire_contract.2.2.2.2.1 201 (by decide) (by decide)⟩

/-! ## Claim C10: a hit without `_source` aborts the whole batch -/

/-- A batch containing a hit whose transform fails is itself an error. -/
theorem transformBatchAux_error_of_mem (hits : List JVal) (hit : JVal)
    (hmem : hit ∈ hits) (herr : ∀ d, TransformDocument hit ≠ .ok d) :
    ∀ i, ∃ e, transformBatchAux i hits = .error e := by
  induction hits with
  | nil => cases hmem
  | cons h t ih =>
    intro i
    rcases List.mem_cons.mp hmem with hmem | hmem
    · cases htd : TransformDocument h with
      | ok d =>
        rw [hmem] at herr
        exact absurd htd (herr d)
      | error e =>
        refine ⟨"transforming hit " ++ toString i ++ ": " ++ e, ?_⟩
        simp [transformBatchAux, htd]
    · cases htd : TransformDocument h with
      | error e =>
        refine ⟨"transforming hit " ++ toString i ++ ": " ++ e, ?_⟩
        simp [transformBatchAux, htd]
      | ok d =>
        obtain ⟨e, he⟩ := ih hmem (i + 1)
        exact ⟨e, by simp [transformBatchAux, htd, he]⟩

/-- Batches that transform and ingest cleanly are consumed by the slice loop,
accumulating their transformed documents. -/
theorem migrateSliceLoop_clean_pre (ingestOk : List JVal → Bool)
    (pre : List (List JVal)) (tail : List (List JVal))
    (hpre : ∀ b ∈ pre, ∃ ds, TransformBatch b = .ok ds ∧ ingestOk ds = true) :
    ∀ acc, migrateSliceLoop ingestOk acc (pre ++ tail) =
      migrateSliceLoop ingestOk (acc ++ pre.map transformedOf) tail := by
  induction pre with
  | nil => intro acc; simp
  | cons b pre' ih =>
    intro acc
    obtain ⟨ds, hds, hok⟩ := hpre b (List.mem_cons_self b pre')
    have h' : ∀ b' ∈ pre', ∃ ds', TransformBatch b' = .ok ds' ∧ ingestOk ds' = true :=
      fun b' hb' => hpre b' (List.mem_cons_of_mem b hb')
    have htr : transformedOf b = ds := by simp [transformedOf, hds]
    have step1 : migrateSliceLoop ingestOk acc ((b :: pre') ++ tail) =
        migrateSliceLoop ingestOk (acc ++ [ds]) (pre' ++ tail) := by
      simp [migrateSliceLoop, hds, hok]
    rw [step1, ih h' (acc ++ [ds])]
    simp [htr]

/-- C10.  If any hit of a scroll batch lacks `_source`, `TransformBatch`
fails the whole batch and the slice worker aborts before ingesting: the
batches that reached the cold store are exactly the earlier clean batches —
no document of the failing batch (not even its well-formed hits) is
ingested — and the slice reports an error instead of falling back to the raw
hit. -/
theorem c10_missing_source_aborts_batch (ingestOk : List JVal → Bool)
    (pre : List (List JVal)) (bad : List JVal) (rest : List (List JVal))
    (hpre : ∀ b ∈ pre, ∃ ds, TransformBatch b = .ok ds ∧ ingestOk ds = true)
    (hbad : ∃ hit ∈ bad, ∃ doc, hit = .jobj doc ∧ jlookup "_source" doc = none) :
    ∃ e, migrateSliceRun ingestOk (pre ++ bad :: rest) =
      (pre.map transformedOf, some e) := by
  obtain ⟨hit, hmem, doc, hdoc, hsrc⟩ := hbad
  have herr : ∀ d, TransformDocument hit ≠ .ok d := by
    intro d
    rw [hdoc]
    simp [TransformDocument, hsrc]
  obtain ⟨e, he⟩ := transformBatchAux_error_of_mem bad hit hmem herr 0
  refine ⟨"transforming batch: " ++ e, ?_⟩
  rw [migrateSliceRun, migrateSliceLoop_clean_pre ingestOk pre (bad :: rest) hpre []]
  simp [migrateSliceLoop, TransformBatch, he]

/-! ## Claim C6: resume skips done slices; finalize on success -/

/-- Workers that all succeed report no errors. -/
theorem workerErrors_eq_nil (f : Nat → Except String Int) (l : List Nat)
    (hall : ∀ i ∈ l, (f i).isOk = true) : workerErrors f l = [] := by
  rw [workerErrors, List.filterMap_eq_nil_iff]
  intro i hi
  cases hw : f i with
  | ok n => simp
  | error e =>
    have h2 := hall i hi
    rw [hw] at h2
    simp [Except.isOk, Except.toBool] at h2

/-- Marking complete always leaves a stored, completed checkpoint. -/
theorem storeMarkComplete_completed (s : StoreState) (index : String) (now : Int) :
    ∃ cp, (storeMarkComplete s index now).checkpoint = some cp ∧ cp.Completed = true := by
  unfold storeMarkComplete storeSave
  cases storeLoad s <;> exact ⟨_, rfl, rfl⟩

/-- C6 counterexample.  On a run where the single launched worker succeeds
(migrating 5 documents) but `delete_after_migration` is enabled and the
delete-by-query fails, `MigrateIndex` returns the delete error, the
checkpoint is never marked complete (`completed = false`), and no watermark
is saved — so "all launched workers succeed" alone does not imply
finalization. -/
theorem c6_counterexample :
    MigrateIndex { workers := 1, migrateAfterDays := 30, deleteAfterMigration := true }
        "logs" none true { checkpoint := none, watermark := none }
        (fun _ => .ok 5) false 0 =
      { store := { checkpoint := some cpAfterDeleteFail, watermark := none }
        launched := [0]
        err := some "deleting migrated documents"
        skippedLockHeld := false } ∧
    (∀ i ∈ [0], ((fun _ => Except.ok (ε := String) (5 : Int)) i).isOk = true) ∧
    cpAfterDeleteFail.Completed = false := by
  exact ⟨rfl, fun i _ => rfl, rfl⟩

/-- C6 as amended.  In any run that passes the lock and cold-index guards,
the launched workers are exactly the slice ids in `[0, workers)` not in the
loaded checkpoint's `slices_done` snapshot (in particular no worker is
launched for a slice recorded done); and when every launched worker succeeds
AND the optional delete-by-query (when enabled and documents were migrated)
also succeeds, the checkpoint is marked complete and the saved watermark's
`migrated_before` equals the run's cutoff `now_utc - migrate_after_days`. -/
theorem c6_resume_and_finalize (cfg : MigCfg) (index : String)
    (lockOutcome : Option (Except String Bool)) (ensureColdOk : Bool)
    (store0 : StoreState) (workerRun : Nat → Except String Int)
    (deleteOk : Bool) (now : Int) (done launched : List Nat)
    (hlock : lockOutcome = none ∨ lockOutcome = some (.ok true))
    (hcold : ensureColdOk = true)
    (hdoneEq : done = (match storeLoad store0 with
      | some cp => cp.SlicesDone
      | none => ([] : List Nat)))
    (hlaunchedEq : launched =
      (List.range cfg.workers).filter (fun i => ¬ done.contains i)) :
    (MigrateIndex cfg index lockOutcome ensureColdOk store0 workerRun deleteOk
        now).launched = launched ∧
    (∀ i ∈ done, i ∉ (MigrateIndex cfg index lockOutcome ensureColdOk store0 workerRun
        deleteOk now).launched) ∧
    ((∀ i ∈ launched, (workerRun i).isOk = true) →
      (cfg.deleteAfterMigration = true → 0 < totalMigrated workerRun launched →
        deleteOk = true) →
      (MigrateIndex cfg index lockOutcome ensureColdOk store0 workerRun deleteOk
          now).err = none ∧
      (∃ cp, (MigrateIndex cfg index lockOutcome ensureColdOk store0 workerRun deleteOk
          now).store.checkpoint = some cp ∧ cp.Completed = true) ∧
      (∃ wm, (MigrateIndex cfg index lockOutcome ensureColdOk store0 workerRun deleteOk
          now).store.watermark = some wm ∧
        wm.MigratedBefore = addDaysUTC now (- cfg.migrateAfterDays))) := by
  subst hcold
  have hred : MigrateIndex cfg index lockOutcome true store0 workerRun deleteOk now =
      migrateIndexCore cfg index store0 workerRun deleteOk now := by
    rcases hlock with h | h <;> rw [h] <;> simp [MigrateIndex]
  rw [hred]
  have hdone : (match storeLoad store0 with
      | some cp => cp
      | none => freshCheckpoint index now).SlicesDone = done := by
    rw [hdoneEq]
    cases storeLoad store0 <;> rfl
  have hlaunched' : (List.range cfg.workers).filter
      (fun i => ¬ ((match storeLoad store0 with
        | some cp => cp
        | none => freshCheckpoint index now).SlicesDone).contains i) = launched := by
    rw [hdone, hlaunchedEq]
  constructor
  · simp only [migrateIndexCore, hlaunched']
    split_ifs <;> rfl
  constructor
  · intro i hi
    have hcont : done.contains i = true := List.elem_eq_true_of_mem hi
    have hnotin : i ∉ launched := by
      rw [hlaunchedEq]
      intro hmem
      have h3 := (List.mem_filter.mp hmem).2
      simp only [decide_eq_true_eq] at h3
      exact h3 hcont
    simp only [migrateIndexCore, hlaunched']
    split_ifs <;> simpa using hnotin
  · intro hall hdel
    have herrs : workerErrors workerRun launched = [] :=
      workerErrors_eq_nil workerRun _ hall
    have hdelcond : ¬ (cfg.deleteAfterMigration = true ∧
        totalMigrated workerRun launched > 0 ∧ ¬ deleteOk = true) := by
      rintro ⟨h1, h2, h3⟩
      exact h3 (hdel h1 h2)
    simp only [migrateIndexCore, hlaunched', herrs]
    rw [if_neg (by simp)]
    rw [if_neg hdelcond]
    refine ⟨rfl, ?_, ?_⟩
    · exact storeMarkComplete_completed _ index now
    · exact ⟨_, rfl, rfl⟩

/-- Witness for C6's amended theorem: a pre-existing checkpoint with slice 0
done and 2 workers launches only slice 1; on success the checkpoint
completes and the watermark lands on the cutoff. -/
theorem c6_resume_and_finalize_witness :
    (MigrateIndex { workers := 2, migrateAfterDays := 30, deleteAfterMigration := false }
        "logs" none true storeSliceZeroDone (fun _ => .ok 2) true
        86400000).launched = [1] ∧
    (∀ i ∈ [0], i ∉ (MigrateIndex
        { workers := 2, migrateAfterDays := 30, deleteAfterMigration := false }
        "logs" none true storeSliceZeroDone (fun _ => .ok 2) true
        86400000).launched) ∧
    ((∀ i ∈ [1], ((fun _ => Except.ok (ε := String) (2 : Int)) i).isOk = true) →
      (false = true → 0 < totalMigrated (fun _ => .ok 2) [1] → true = true) →
      (MigrateIndex { workers := 2, migrateAfterDays := 30, deleteAfterMigration := false }
          "logs" none true storeSliceZeroDone (fun _ => .ok 2) true
          86400000).err = none ∧
      (∃ cp, (MigrateIndex
          { workers := 2, migrateAfterDays := 30, deleteAfterMigration := false }
          "logs" none true storeSliceZeroDone (fun _ => .ok 2) true
          86400000).store.checkpoint = some cp ∧ cp.Completed = true) ∧
      (∃ wm, (MigrateIndex
          { workers := 2, migrateAfterDays := 30, deleteAfterMigration := false }
          "logs" none true storeSliceZeroDone (fun _ => .ok 2) true
          86400000).store.watermark = some wm ∧
        wm.MigratedBefore = addDaysUTC 86400000 (-(30 : Int)))) :=
  c6_resume_and_finalize
    { workers := 2, migrateAfterDays := 30, deleteAfterMigration := false } "logs"
    none true storeSliceZeroDone (fun _ => .ok 2) true 86400000 [0] [1]
    (Or.inl rfl) rfl rfl (by decide)

/-- Witness for C10: one clean batch, then a batch whose second hit lacks
`_source`; only the clean batch's document is ingested and the slice errors. -/
theorem c10_missing_source_aborts_batch_witness :
    ∃ e, migrateSliceRun (fun _ => true)
        ([[JVal.jobj [("_source", JVal.jstr "a")]]] ++
          [JVal.jobj [("_source", JVal.jstr "b")], JVal.jobj [("x", JVal.jnum 1)]] ::
            []) =
      ([[JVal.jobj [("_source", JVal.jstr "a")]]].map transformedOf, some e) :=
  c10_missing_source_aborts_batch (fun _ => true)
    [[JVal.jobj [("_source", JVal.jstr "a")]]]
    [JVal.jobj [("_source", JVal.jstr "b")], JVal.jobj [("x", JVal.jnum 1)]] []
    (by intro b hb
        rcases List.mem_singleton.mp hb with rfl
        exact ⟨[JVal.jstr "a"], rfl, rfl⟩)
    ⟨JVal.jobj [("x", JVal.jnum 1)], by simp, [("x", JVal.jnum 1)], rfl, rfl⟩

/-! ## Claim C4: merger correctness -/

theorem hitLessDesc_asym (a b : Hit) (h : hitLessDesc a b = true) :
    hitLessDesc b a = false := by
  simp only [hitLessDesc, decide_eq_true_eq] at h
  simp only [hitLessDesc, decide_eq_false_iff_not]
  exact lt_asymm h

theorem hitLessDesc_cotrans (a b c : Hit) (h1 : hitLessDesc b a = false)
    (h2 : hitLessDesc c b = false) : hitLessDesc c a = false := by
  simp only [hitLessDesc, decide_eq_false_iff_not, not_lt] at h1 h2 ⊢
  exact h2.trans h1

theorem hitLessAsc_asym (a b : Hit) (h : hitLessAsc a b = true) :
    hitLessAsc b a = false := by
  simp only [hitLessAsc, decide_eq_true_eq] at h
  simp only [hitLessAsc, decide_eq_false_iff_not]
  exact lt_asymm h

theorem hitLessAsc_cotrans (a b c : Hit) (h1 : hitLessAsc b a = false)
    (h2 : hitLessAsc c b = false) : hitLessAsc c a = false := by
  simp only [hitLessAsc, decide_eq_false_iff_not, not_lt] at h1 h2 ⊢
  exact h1.trans h2

theorem hit_tie_desc (s : Rat) (a b : Hit) (ha : (extractScore a == s) = true)
    (hb : (extractScore b == s) = true) : hitLessDesc a b = false := by
  rw [beq_iff_eq] at ha hb
  simp [hitLessDesc, ha, hb]

theorem hit_tie_asc (s : Rat) (a b : Hit) (ha : (extractScore a == s) = true)
    (hb : (extractScore b == s) = true) : hitLessAsc a b = false := by
  rw [beq_iff_eq] at ha hb
  simp [hitLessAsc, ha, hb]

/-- The clamped pagination slice equals plain drop/take when `from` and
`size` are non-negative. -/
theorem pageOf_eq (f s : Int) (l : List Hit) (hf : 0 ≤ f) (hs : 0 ≤ s) :
    pageOf f s l = (l.drop f.toNat).take s.toNat := by
  rw [pageOf]
  by_cases hgt : (l.length : Int) < f
  · rw [if_pos (by exact hgt)]
    have hlen : l.length ≤ f.toNat := by omega
    rw [List.drop_eq_nil_of_le hlen, List.take_nil]
  · rw [if_neg (by simpa using hgt)]
    by_cases hfs : f + s ≤ (l.length : Int)
    · have hts : (f + s - f).toNat = s.toNat := by omega
      rw [min_eq_left hfs, hts]
    · rw [min_eq_right (le_of_not_le hfs)]
      have hdroplen : (l.drop f.toNat).length = l.length - f.toNat := List.length_drop _ _
      rw [List.take_of_length_le (by omega), List.take_of_length_le (by omega)]

/-- The merger's running-max fold over a page equals the fold of `max` over
the page's scores. -/
theorem foldl_clampMax (t : List Hit) : ∀ init : Rat,
    t.foldl (fun m x => if extractScore x > m then extractScore x else m) init =
      (t.map extractScore).foldl max init := by
  induction t with
  | nil => intro init; rfl
  | cons x xs ih =>
    intro init
    have hstep : (if extractScore x > init then extractScore x else init) =
        max init (extractScore x) := by
      rcases le_or_lt (extractScore x) init with h | h
      · rw [if_neg (not_lt.mpr h), max_eq_left h]
      · rw [if_pos h, max_eq_right (le_of_lt h)]
    simp only [List.foldl_cons, List.map_cons, hstep, ih]

/-- The merger's recomputed page `max_score` is `max?` of the page scores. -/
theorem pageMaxScoreOf_eq (page : List Hit) :
    pageMaxScoreOf page = (page.map extractScore).max? := by
  cases page with
  | nil => rfl
  | cons h t =>
    simp only [pageMaxScoreOf, List.map_cons, List.max?, foldl_clampMax]

/-- C4.  For two non-null responses the merged response has
`took = max`, `timed_out = or`, `total.value = sum`,
`total.relation = "gte"` iff either side is `"gte"` (else `"eq"`), and
`max_score = max` respecting nulls; the merged hits are a stable permutation
of `hot.hits ++ cold.hits` ordered by `_score` (missing scores read as 0;
descending by default, ascending when the directive asks) — expressed as:
a permutation, sorted, preserving the relative order of every equal-score
class; and under pagination the returned page is exactly the
`[from, from+size)` slice of that ordering with `max_score` recomputed over
the page (null when the page is empty). -/
theorem c4_merge_and_paginate (hot cold : SearchResponse) (opts : MergeOptions)
    (hFrom : 0 ≤ opts.From) (hSize : 0 ≤ opts.Size) :
    MergeSearchResponses (some hot) (some cold) = some (mergeBoth hot cold) ∧
    (mergeBoth hot cold).took = max hot.took cold.took ∧
    (mergeBoth hot cold).timedOut = (hot.timedOut || cold.timedOut) ∧
    (mergeBoth hot cold).hits.total.value =
      hot.hits.total.value + cold.hits.total.value ∧
    ((mergeBoth hot cold).hits.total.relation = "gte" ↔
      (hot.hits.total.relation = "gte" ∨ cold.hits.total.relation = "gte")) ∧
    (¬ (hot.hits.total.relation = "gte" ∨ cold.hits.total.relation = "gte") →
      (mergeBoth hot cold).hits.total.relation = "eq") ∧
    (mergeBoth hot cold).hits.maxScore =
      (match hot.hits.maxScore, cold.hits.maxScore with
       | none, b => b
       | some x, none => some x
       | some x, some y => some (max x y)) ∧
    ∃ ord : List Hit,
      ord.Perm (hot.hits.hits ++ cold.hits.hits) ∧
      (opts.ScoreAsc = true →
        ord.Pairwise (fun a b => extractScore a ≤ extractScore b)) ∧
      (opts.ScoreAsc = false →
        ord.Pairwise (fun a b => extractScore b ≤ extractScore a)) ∧
      (∀ s : Rat, ord.filter (fun h => extractScore h == s) =
        (hot.hits.hits ++ cold.hits.hits).filter (fun h => extractScore h == s)) ∧
      ∃ R : SearchResponse,
        MergeSearchResponsesWithOptions (some hot) (some cold) opts = some R ∧
        R.hits.hits = (if opts.Paginate = true
          then (ord.drop opts.From.toNat).take opts.Size.toNat else ord) ∧
        (opts.Paginate = true →
          R.hits.maxScore = (R.hits.hits.map extractScore).max?) := by
  refine ⟨rfl, rfl, rfl, rfl, ?_, ?_, ?_, ?_⟩
  · show mergeRelation hot.hits.total.relation cold.hits.total.relation = "gte" ↔ _
    rw [mergeRelation]
    split_ifs with h
    · simp [h]
    · simp [h]
  · intro h
    show mergeRelation hot.hits.total.relation cold.hits.total.relation = "eq"
    rw [mergeRelation, if_neg h]
  · show mergeMaxScore hot.hits.maxScore cold.hits.maxScore = _
    cases hot.hits.maxScore with
    | none => rfl
    | some x =>
      cases cold.hits.maxScore with
      | none => rfl
      | some y =>
        show some (if y > x then y else x) = some (max x y)
        rcases le_or_lt y x with h | h
        · rw [if_neg (not_lt.mpr h), max_eq_left h]
        · rw [if_pos h, max_eq_right (le_of_lt h)]
  · have hpermD : (sortHitsByScore (hot.hits.hits ++ cold.hits.hits)).Perm
        (hot.hits.hits ++ cold.hits.hits) := stableSortBy_perm _ _
    have hsortD : (sortHitsByScore (hot.hits.hits ++ cold.hits.hits)).Pairwise
        (fun a b => extractScore b ≤ extractScore a) := by
      refine (stableSortBy_pairwise hitLessDesc hitLessDesc_asym hitLessDesc_cotrans
        _).imp ?_
      intro a b hb
      simp only [hitLessDesc, decide_eq_false_iff_not, not_lt] at hb
      exact hb
    have hfiltD : ∀ s : Rat,
        (sortHitsByScore (hot.hits.hits ++ cold.hits.hits)).filter
          (fun h => extractScore h == s) =
        (hot.hits.hits ++ cold.hits.hits).filter (fun h => extractScore h == s) :=
      fun s => filter_stableSortBy _ _ (hit_tie_desc s) _
    have hf : (if opts.From < 0 then 0 else opts.From) = opts.From :=
      if_neg (not_lt.mpr hFrom)
    have hs2 : (if opts.Size < 0 then 0 else opts.Size) = opts.Size :=
      if_neg (not_lt.mpr hSize)
    by_cases hasc : opts.ScoreAsc = true
    · refine ⟨sortHitsByScoreAsc (sortHitsByScore (hot.hits.hits ++ cold.hits.hits)),
        (stableSortBy_perm _ _).trans hpermD, ?_, ?_, ?_, ?_⟩
      · intro _
        refine (stableSortBy_pairwise hitLessAsc hitLessAsc_asym hitLessAsc_cotrans
          _).imp ?_
        intro a b hb
        simp only [hitLessAsc, decide_eq_false_iff_not, not_lt] at hb
        exact hb
      · intro hfalse
        rw [hasc] at hfalse
        cases hfalse
      · intro s
        rw [sortHitsByScoreAsc, filter_stableSortBy _ _ (hit_tie_asc s), hfiltD s]
      · by_cases hpag : opts.Paginate = true
        · refine ⟨{ mergeBoth hot cold with hits := { (mergeBoth hot cold).hits with
              maxScore := pageMaxScoreOf (pageOf opts.From opts.Size
                (sortHitsByScoreAsc (sortHitsByScore (hot.hits.hits ++ cold.hits.hits)))),
              hits := pageOf opts.From opts.Size
                (sortHitsByScoreAsc (sortHitsByScore
                  (hot.hits.hits ++ cold.hits.hits))) } }, ?_, ?_, ?_⟩
          · simp only [MergeSearchResponsesWithOptions, MergeSearchResponses, hasc,
              hpag, if_true, hf, hs2, mergeBoth]
          · show pageOf opts.From opts.Size _ = _
            rw [hpag, if_pos rfl, pageOf_eq _ _ _ hFrom hSize]
          · intro _
            show pageMaxScoreOf _ = _
            exact pageMaxScoreOf_eq _
        · have hpag' : opts.Paginate = false := by
            revert hpag
            cases opts.Paginate <;> simp
          refine ⟨{ mergeBoth hot cold with hits := { (mergeBoth hot cold).hits with
              hits := sortHitsByScoreAsc (sortHitsByScore
                (hot.hits.hits ++ cold.hits.hits)) } }, ?_, ?_, ?_⟩
          · simp only [MergeSearchResponsesWithOptions, MergeSearchResponses, hasc,
              hpag', if_true, Bool.false_eq_true, if_false, mergeBoth]
          · rw [hpag']
            simp only [Bool.false_eq_true, if_false]
          · intro h
            rw [hpag'] at h
            cases h
    · have hasc' : opts.ScoreAsc = false := by
        revert hasc
        cases opts.ScoreAsc <;> simp
      refine ⟨sortHitsByScore (hot.hits.hits ++ cold.hits.hits), hpermD, ?_, ?_,
        hfiltD, ?_⟩
      · intro h
        exact absurd h hasc
      · intro _
        exact hsortD
      · by_cases hpag : opts.Paginate = true
        · refine ⟨{ mergeBoth hot cold with hits := { (mergeBoth hot cold).hits with
              maxScore := pageMaxScoreOf (pageOf opts.From opts.Size
                (sortHitsByScore (hot.hits.hits ++ cold.hits.hits))),
              hits := pageOf opts.From opts.Size
                (sortHitsByScore (hot.hits.hits ++ cold.hits.hits)) } }, ?_, ?_, ?_⟩
          · simp only [MergeSearchResponsesWithOptions, MergeSearchResponses, hasc',
              hpag, if_true, Bool.false_eq_true, if_false, hf, hs2, mergeBoth]
          · show pageOf opts.From opts.Size _ = _
            rw [hpag, if_pos rfl, pageOf_eq _ _ _ hFrom hSize]
          · intro _
            show pageMaxScoreOf _ = _
            exact pageMaxScoreOf_eq _
        · have hpag' : opts.Paginate = false := by
            revert hpag
            cases opts.Paginate <;> simp
          refine ⟨mergeBoth hot cold, ?_, ?_, ?_⟩
          · simp only [MergeSearchResponsesWithOptions, MergeSearchResponses, hasc',
              hpag', Bool.false_eq_true, if_false]
          · rw [hpag']
            simp only [Bool.false_eq_true, if_false]
            rfl
          · intro h
            rw [hpag'] at h
            cases h

/-- Witness for C4 at the pagination seed scenario: hot scores (3, 1), cold
scores (2, 0), page `from = 1`, `size = 2` of the descending order. -/
theorem c4_merge_and_paginate_witness :
    MergeSearchResponses (some hotMergeEx) (some coldMergeEx) =
      some (mergeBoth hotMergeEx coldMergeEx) ∧
    (mergeBoth hotMergeEx coldMergeEx).took = max hotMergeEx.took coldMergeEx.took ∧
    (mergeBoth hotMergeEx coldMergeEx).timedOut =
      (hotMergeEx.timedOut || coldMergeEx.timedOut) ∧
    (mergeBoth hotMergeEx coldMergeEx).hits.total.value =
      hotMergeEx.hits.total.value + coldMergeEx.hits.total.value ∧
    ((mergeBoth hotMergeEx coldMergeEx).hits.total.relation = "gte" ↔
      (hotMergeEx.hits.total.relation = "gte" ∨
        coldMergeEx.hits.total.relation = "gte")) ∧
    (¬ (hotMergeEx.hits.total.relation = "gte" ∨
        coldMergeEx.hits.total.relation = "gte") →
      (mergeBoth hotMergeEx coldMergeEx).hits.total.relation = "eq") ∧
    (mergeBoth hotMergeEx coldMergeEx).hits.maxScore =
      (match hotMergeEx.hits.maxScore, coldMergeEx.hits.maxScore with
       | none, b => b
       | some x, none => some x
       | some x, some y => some (max x y)) ∧
    ∃ ord : List Hit,
      ord.Perm (hotMergeEx.hits.hits ++ coldMergeEx.hits.hits) ∧
      (optsMergeEx.ScoreAsc = true →
        ord.Pairwise (fun a b => extractScore a ≤ extractScore b)) ∧
      (optsMergeEx.ScoreAsc = false →
        ord.Pairwise (fun a b => extractScore b ≤ extractScore a)) ∧
      (∀ s : Rat, ord.filter (fun h => extractScore h == s) =
        (hotMergeEx.hits.hits ++ coldMergeEx.hits.hits).filter
          (fun h => extractScore h == s)) ∧
      ∃ R : SearchResponse,
        MergeSearchResponsesWithOptions (some hotMergeEx) (some coldMergeEx)
          optsMergeEx = some R ∧
        R.hits.hits = (if optsMergeEx.Paginate = true
          then (ord.drop optsMergeEx.From.toNat).take optsMergeEx.Size.toNat
          else ord) ∧
        (optsMergeEx.Paginate = true →
          R.hits.maxScore = (R.hits.hits.map extractScore).max?) :=
  c4_merge_and_paginate hotMergeEx coldMergeEx optsMergeEx (by decide) (by decide)

end Oqbridge


